import Mathlib

/-!
Verification of the resume-analyzer request pipeline
(`backend/routes/analyze.js` together with the global error handler of
`backend/server.js`).

Strings are modelled as `List Char` (one entry per code point; the
JavaScript runtime counts UTF-16 units, which agrees on all inputs the
claims quantify over).  The route handler is embedded as a pure function
from the request body fields and the raw model output to the HTTP
response it produces, together with the prompt it sent to the remote
model (`none` when no remote call was made).
-/

namespace ResumeAnalyzer

/-- The backtick character. -/
def bt : Char := Char.ofNat 96

/-- The double-quote character. -/
def qc : Char := Char.ofNat 34

/-- The backslash character. -/
def bs : Char := Char.ofNat 92

/-- The opening-brace character. -/
def obr : Char := Char.ofNat 123

/-- The closing-brace character. -/
def cbr : Char := Char.ofNat 125

/-- JavaScript whitespace (the set matched by the regexp class and by
`String.prototype.trim`: WhiteSpace together with LineTerminator). -/
def jsWs (c : Char) : Bool :=
  c = ' ' || c = '\t' || c = '\n' || c = '\r' ||
  c.toNat = 0xb || c.toNat = 0xc || c.toNat = 0xa0 || c.toNat = 0xfeff ||
  c.toNat = 0x1680 || (0x2000 ≤ c.toNat && c.toNat ≤ 0x200a) ||
  c.toNat = 0x2028 || c.toNat = 0x2029 || c.toNat = 0x202f ||
  c.toNat = 0x205f || c.toNat = 0x3000

/-- Whitespace accepted between tokens by `JSON.parse`. -/
def jsonWs (c : Char) : Bool :=
  c = ' ' || c = '\t' || c = '\n' || c = '\r'

/-- `String.prototype.trim`: drop JavaScript whitespace from both ends. -/
def jsTrim (l : List Char) : List Char :=
  (((l.dropWhile jsWs).reverse.dropWhile jsWs)).reverse

/-- Does the list start with `json` (case-insensitively), as tested by the
`i`-flagged regexp `/```json\s*/gi`? -/
def isJsonTag : List Char → Bool
  | c1 :: c2 :: c3 :: c4 :: _ =>
    c1.toLower = 'j' && c2.toLower = 's' && c3.toLower = 'o' && c4.toLower = 'n'
  | _ => false

/-- One pass of the global replace `/```json\s*/gi` with the empty
replacement: scan left to right; whenever three backticks followed by a
case-insensitive `json` tag are found, delete them together with the
(greedy) whitespace run that follows and resume scanning after the match,
exactly as a JavaScript global regexp replace does.  The `fuel` argument
makes the recursion structural; `stripJsonFence` supplies enough fuel for
the scan to complete (when fuel runs out the remainder is kept as is). -/
def strip1F : Nat → List Char → List Char
  | 0, l => l
  | _ + 1, [] => []
  | fuel + 1, c :: rest =>
    if c = bt ∧ rest.take 2 = [bt, bt] ∧ isJsonTag (rest.drop 2) then
      strip1F fuel (List.dropWhile jsWs (rest.drop 6))
    else
      c :: strip1F fuel rest

/-- The global replace `/```json\s*/gi` with empty replacement. -/
def stripJsonFence (l : List Char) : List Char := strip1F l.length l

/-- One pass of the global replace `/```\s*/gi` with the empty
replacement (fuelled as in `strip1F`). -/
def strip2F : Nat → List Char → List Char
  | 0, l => l
  | _ + 1, [] => []
  | fuel + 1, c :: rest =>
    if c = bt ∧ rest.take 2 = [bt, bt] then
      strip2F fuel (List.dropWhile jsWs (rest.drop 2))
    else
      c :: strip2F fuel rest

/-- The global replace `/```\s*/gi` with empty replacement. -/
def stripAllFence (l : List Char) : List Char := strip2F l.length l

/-- The `cleaned` value of the route handler:
`rawContent.replace(/```json\s*/gi, '').replace(/```\s*/gi, '').trim()`. -/
def cleanContent (raw : List Char) : List Char :=
  jsTrim (stripAllFence (stripJsonFence raw))

/-! ### JSON values and `JSON.parse`

A JSON value as produced by `JSON.parse`.  Numbers are kept in token
form (sign, integer digits, fraction digits, optional exponent), which
is faithful to the grammar and suffices for every claim; objects keep
their key/value pairs in source order (JavaScript keeps the last
duplicate key — no claim involves duplicate keys). -/

inductive Json where
  | jnull : Json
  | jbool (b : Bool) : Json
  | jnum (neg : Bool) (intPart : List Char) (fracPart : List Char)
      (expPart : Option (Bool × List Char)) : Json
  | jstr (s : List Char) : Json
  | jarr (xs : List Json) : Json
  | jobj (fields : List (List Char × Json)) : Json

/-- Value of a hexadecimal digit. -/
def hexDigitVal (c : Char) : Option Nat :=
  if c.isDigit then some (c.toNat - 48)
  else if 'a' ≤ c ∧ c ≤ 'f' then some (c.toNat - 97 + 10)
  else if 'A' ≤ c ∧ c ≤ 'F' then some (c.toNat - 65 + 10)
  else none

/-- Parse the remainder of a JSON string literal (the opening quote has
already been consumed).  Returns the decoded characters and the input
after the closing quote.  An escaped `\uXXXX` unit is decoded with
`Char.ofNat` (a lone surrogate, which JavaScript would keep as a raw
UTF-16 unit, decodes to `'\0'`; no claim exercises lone surrogates). -/
def parseStringRest : List Char → Option (List Char × List Char)
  | [] => none
  | c :: r =>
    if c = qc then some ([], r)
    else if c = bs then
      match r with
      | [] => none
      | e :: r2 =>
        if e = qc then (parseStringRest r2).map (fun p => (qc :: p.1, p.2))
        else if e = bs then (parseStringRest r2).map (fun p => (bs :: p.1, p.2))
        else if e = '/' then (parseStringRest r2).map (fun p => ('/' :: p.1, p.2))
        else if e = 'b' then (parseStringRest r2).map (fun p => (Char.ofNat 8 :: p.1, p.2))
        else if e = 'f' then (parseStringRest r2).map (fun p => (Char.ofNat 12 :: p.1, p.2))
        else if e = 'n' then (parseStringRest r2).map (fun p => ('\n' :: p.1, p.2))
        else if e = 'r' then (parseStringRest r2).map (fun p => ('\r' :: p.1, p.2))
        else if e = 't' then (parseStringRest r2).map (fun p => ('\t' :: p.1, p.2))
        else if e = 'u' then
          match r2 with
          | h1 :: h2 :: h3 :: h4 :: r3 =>
            match hexDigitVal h1, hexDigitVal h2, hexDigitVal h3, hexDigitVal h4 with
            | some a, some b, some c2, some d =>
              (parseStringRest r3).map
                (fun p => (Char.ofNat (a * 4096 + b * 256 + c2 * 16 + d) :: p.1, p.2))
            | _, _, _, _ => none
          | _ => none
        else none
    else if c.toNat < 32 then none
    else (parseStringRest r).map (fun p => (c :: p.1, p.2))

/-- Parse a JSON number token (grammar of `JSON.parse`).  Malformed
suffixes (`1.`, `1e`) leave the offending characters unconsumed, which
makes the enclosing parse fail exactly as `JSON.parse` does. -/
def parseNumber (l : List Char) : Option (Json × List Char) :=
  let sign := match l with
    | c :: r => if c = '-' then (true, r) else (false, l)
    | [] => (false, l)
  match sign.2 with
  | [] => none
  | c :: r =>
    if c.isDigit then
      let ipr : List Char × List Char :=
        if c = '0' then (['0'], r)
        else ((c :: r).takeWhile Char.isDigit, (c :: r).dropWhile Char.isDigit)
      let fpr : List Char × List Char :=
        match ipr.2 with
        | c2 :: r2 =>
          if c2 = '.' then
            if (r2.takeWhile Char.isDigit) = [] then ([], ipr.2)
            else (r2.takeWhile Char.isDigit, r2.dropWhile Char.isDigit)
          else ([], ipr.2)
        | [] => ([], ipr.2)
      let epr : Option (Bool × List Char) × List Char :=
        match fpr.2 with
        | c3 :: r3 =>
          if c3 = 'e' ∨ c3 = 'E' then
            let sgn : Bool × List Char :=
              match r3 with
              | c4 :: r4 =>
                if c4 = '+' then (false, r4)
                else if c4 = '-' then (true, r4) else (false, r3)
              | [] => (false, r3)
            if (sgn.2.takeWhile Char.isDigit) = [] then (none, fpr.2)
            else (some (sgn.1, sgn.2.takeWhile Char.isDigit),
                  sgn.2.dropWhile Char.isDigit)
          else (none, fpr.2)
        | [] => (none, fpr.2)
      some (.jnum sign.1 ipr.1 fpr.1 epr.1, epr.2)
    else none

mutual

/-- Parse one JSON value (fuelled recursive descent; `jsonParse` supplies
more fuel than any input of its length can consume). -/
def parseVal : Nat → List Char → Option (Json × List Char)
  | 0, _ => none
  | n + 1, l =>
    match List.dropWhile jsonWs l with
    | [] => none
    | c :: r =>
      if c = 'n' then
        match r with
        | 'u' :: 'l' :: 'l' :: r2 => some (.jnull, r2)
        | _ => none
      else if c = 't' then
        match r with
        | 'r' :: 'u' :: 'e' :: r2 => some (.jbool true, r2)
        | _ => none
      else if c = 'f' then
        match r with
        | 'a' :: 'l' :: 's' :: 'e' :: r2 => some (.jbool false, r2)
        | _ => none
      else if c = qc then
        match parseStringRest r with
        | some (s, r2) => some (.jstr s, r2)
        | none => none
      else if c = '[' then
        match List.dropWhile jsonWs r with
        | c2 :: r2 =>
          if c2 = ']' then some (.jarr [], r2)
          else
            match parseElems n (List.dropWhile jsonWs r) with
            | some (vs, r3) => some (.jarr vs, r3)
            | none => none
        | [] => none
      else if c = obr then
        match List.dropWhile jsonWs r with
        | c2 :: r2 =>
          if c2 = cbr then some (.jobj [], r2)
          else
            match parseMembers n (List.dropWhile jsonWs r) with
            | some (ms, r3) => some (.jobj ms, r3)
            | none => none
        | [] => none
      else parseNumber (c :: r)

/-- Parse the elements of a non-empty JSON array, up to and including the
closing bracket. -/
def parseElems : Nat → List Char → Option (List Json × List Char)
  | 0, _ => none
  | n + 1, l =>
    match parseVal n l with
    | none => none
    | some (v, r) =>
      match List.dropWhile jsonWs r with
      | c :: r2 =>
        if c = ',' then
          match parseElems n r2 with
          | some (vs, r3) => some (v :: vs, r3)
          | none => none
        else if c = ']' then some ([v], r2)
        else none
      | [] => none

/-- Parse the members of a non-empty JSON object, up to and including the
closing brace. -/
def parseMembers : Nat → List Char → Option (List (List Char × Json) × List Char)
  | 0, _ => none
  | n + 1, l =>
    match List.dropWhile jsonWs l with
    | c :: r =>
      if c = qc then
        match parseStringRest r with
        | some (k, r1) =>
          match List.dropWhile jsonWs r1 with
          | c2 :: r2 =>
            if c2 = ':' then
              match parseVal n r2 with
              | some (v, r3) =>
                match List.dropWhile jsonWs r3 with
                | c3 :: r4 =>
                  if c3 = ',' then
                    match parseMembers n r4 with
                    | some (ms, r5) => some ((k, v) :: ms, r5)
                    | none => none
                  else if c3 = cbr then some ([(k, v)], r4)
                  else none
                | [] => none
              | none => none
            else none
          | [] => none
        | none => none
      else none
    | [] => none

end

/-- `JSON.parse`: parse one value and require only whitespace after it.
The fuel `4 * (length + 1)` exceeds what any input of this length can
consume, since between two consecutive fuel-decrementing calls at the
same nesting level at least one character is consumed and each level of
nesting consumes an opening bracket. -/
def jsonParse (l : List Char) : Option Json :=
  match parseVal (4 * (l.length + 1)) l with
  | some (v, r) => if List.dropWhile jsonWs r = [] then some v else none
  | none => none

/-! ### The `/analyze` route handler and the global error handler -/

/-- JavaScript truthiness of a JSON value (`null`, `false`, zero and the
empty string are falsy; every array and object is truthy). -/
def jsTruthy : Json → Bool
  | .jnull => false
  | .jbool b => b
  | .jnum _ ip fp _ => !(ip.all (fun c => c = '0') && fp.all (fun c => c = '0'))
  | .jstr s => !s.isEmpty
  | .jarr _ => true
  | .jobj _ => true

/-- The two fields destructured from `req.body`; `none` models an absent
field (`undefined`), which is falsy. -/
structure Req where
  resume : Option Json
  jobDescription : Option Json

/-- Truthiness of a possibly absent field. -/
def fieldTruthy : Option Json → Bool
  | none => false
  | some v => jsTruthy v

/-- Is the field present and a string? -/
def isStringField : Option Json → Bool
  | some (.jstr _) => true
  | _ => false

/-- A JavaScript error value as seen by the Express error handler:
`statusCode` (absent on a plain `TypeError`), `message`, and the
runtime-generated `stack` text (carried opaquely; no claim depends on
its contents). -/
structure JsError where
  statusCode : Option Nat
  message : List Char
  stack : List Char

/-- What the route handler does with the response: either respond with a
status and a JSON body (a list of key/value pairs in insertion order), or
pass an error to `next`, landing in the global error handler. -/
inductive RouteResult where
  | resp (status : Nat) (body : List (List Char × Json)) : RouteResult
  | raised (e : JsError) : RouteResult

/-- The prompt sent to the remote model: the fixed system instruction and
the user message. -/
structure Prompt where
  systemMsg : List Char
  userMsg : List Char

def resumeErrMsg : List Char := "Resume must be at least 50 characters.".data

def jdErrMsg : List Char := "Job description must be at least 30 characters.".data

def formatErrMsg : List Char := "AI returned unexpected format. Please try again.".data

def internalErrMsg : List Char := "Internal Server Error".data

def successKey : List Char := "success".data

def dataKey : List Char := "data".data

def errorKey : List Char := "error".data

def stackKey : List Char := "stack".data

/-- Body `{ error: m }`. -/
def errBody (m : List Char) : List (List Char × Json) := [(errorKey, .jstr m)]

/-- The fixed system-role message of the prompt (verbatim from the
source; `\x7b`/`\x7d` are the literal braces of the JSON template). -/
def systemInstruction : List Char :=
  "You are an expert ATS and career coach AI.\nReturn ONLY valid JSON, no markdown, no code fences, no extra text.\nJSON structure:\n\x7b\n  \"matchScore\": <integer 0-100>,\n  \"performanceRating\": <\"Excellent\"|\"Good\"|\"Average\"|\"Below Average\"|\"Poor\">,\n  \"strengths\": [<3-5 strings>],\n  \"weaknesses\": [<3-5 strings>],\n  \"improvementSuggestions\": [<3-5 strings>],\n  \"keywordsFound\": [<keywords from JD found in resume>],\n  \"keywordsMissing\": [<keywords from JD missing in resume>],\n  \"summary\": \"<2-3 sentence assessment>\"\n\x7d".data

def userMsgIntro : List Char :=
  "Analyze this resume against the job description.\n\n=== RESUME ===\n".data

def userMsgMid : List Char :=
  "\n\n=== JOB DESCRIPTION ===\n".data

def userMsgEnd : List Char :=
  "\n\nReturn ONLY the JSON object.".data

/-- The user-role message of the prompt, as built by the template literal
of the source. -/
def userMessage (safeResume safeJD : List Char) : List Char :=
  userMsgIntro ++ safeResume ++ userMsgMid ++ safeJD ++ userMsgEnd

def resumeTrimTypeErr : List Char := "resume.trim is not a function".data

def jdTrimTypeErr : List Char := "jobDescription.trim is not a function".data

/-- The body of the `POST /analyze` handler.  `rawContent` is
`completion.choices[0].message.content`, the text returned by the remote
model (an opaque external capability).  The second component is the
prompt sent to that capability, `none` when the handler returned before
calling it.  Calling `.trim()` on a truthy non-string raises a
`TypeError`, which the surrounding `try`/`catch` forwards to `next`. -/
def analyzeRoute (req : Req) (rawContent : List Char) :
    RouteResult × Option Prompt :=
  match req.resume with
  | none => (.resp 400 (errBody resumeErrMsg), none)
  | some rv =>
    if jsTruthy rv = false then (.resp 400 (errBody resumeErrMsg), none)
    else
      match rv with
      | .jstr rs =>
        if (jsTrim rs).length < 50 then (.resp 400 (errBody resumeErrMsg), none)
        else
          match req.jobDescription with
          | none => (.resp 400 (errBody jdErrMsg), none)
          | some jv =>
            if jsTruthy jv = false then (.resp 400 (errBody jdErrMsg), none)
            else
              match jv with
              | .jstr js =>
                if (jsTrim js).length < 30 then
                  (.resp 400 (errBody jdErrMsg), none)
                else
                  let safeResume := (jsTrim rs).take 6000
                  let safeJD := (jsTrim js).take 3000
                  let prompt : Prompt :=
                    ⟨systemInstruction, userMessage safeResume safeJD⟩
                  match jsonParse (cleanContent rawContent) with
                  | none => (.resp 500 (errBody formatErrMsg), some prompt)
                  | some v =>
                    (.resp 200 [(successKey, .jbool true), (dataKey, v)],
                     some prompt)
              | _ => (.raised ⟨none, jdTrimTypeErr, jdTrimTypeErr⟩, none)
      | _ => (.raised ⟨none, resumeTrimTypeErr, resumeTrimTypeErr⟩, none)

/-- The global error handler of `server.js`: status `err.statusCode || 500`,
body `{ error: err.message || 'Internal Server Error' }`, with an extra
`stack` field in development mode. -/
def serverRespond (devMode : Bool) : RouteResult → Nat × List (List Char × Json)
  | .resp s b => (s, b)
  | .raised e =>
    (e.statusCode.getD 500,
     [(errorKey, .jstr (if e.message.isEmpty then internalErrMsg else e.message))]
       ++ (if devMode then [(stackKey, .jstr e.stack)] else []))

/-- End-to-end behaviour of `POST /analyze`: the HTTP status and JSON
body sent to the client, and the prompt sent to the remote model
(`none` when no remote call was made). -/
def analyzeEndpoint (devMode : Bool) (req : Req) (rawContent : List Char) :
    (Nat × List (List Char × Json)) × Option Prompt :=
  ((serverRespond devMode (analyzeRoute req rawContent).1),
   (analyzeRoute req rawContent).2)

/-- Lookup of a key in a JSON body. -/
def lookupKV (k : List Char) : List (List Char × Json) → Option Json
  | [] => none
  | (k2, v) :: rest => if k2 = k then some v else lookupKV k rest

/-- Does the text contain a run of three consecutive backticks?  (The
only substrings either regexp of the normalizer can match start with
such a run.) -/
def hasFence : List Char → Bool
  | [] => false
  | c :: rest => if c = bt ∧ rest.take 2 = [bt, bt] then true else hasFence rest

/-- A text wrapped in a `json`-tagged code fence. -/
def fenceWrapJson (s : List Char) : List Char :=
  "```json\n".data ++ s ++ "\n```".data

/-- A text wrapped in an untagged code fence. -/
def fenceWrapPlain (s : List Char) : List Char :=
  "```\n".data ++ s ++ "\n```".data

/-! ### Facts about the fence-stripping scanners -/

theorem length_dropWhile_le (p : Char → Bool) (l : List Char) :
    (l.dropWhile p).length ≤ l.length := by
  induction l with
  | nil => simp
  | cons c rest ih =>
    rw [List.dropWhile_cons]
    split
    · exact Nat.le_succ_of_le ih
    · simp

theorem hasFence_cons_elim {c : Char} {rest : List Char}
    (h : hasFence (c :: rest) = false) :
    ¬(c = bt ∧ rest.take 2 = [bt, bt]) ∧ hasFence rest = false := by
  by_cases hc : c = bt ∧ rest.take 2 = [bt, bt]
  · simp [hasFence, hc] at h
  · simpa [hasFence, hc] using h

/-- The scanners ignore the exact amount of fuel as long as it covers the
input length. -/
theorem strip1F_fuel (f1 f2 : Nat) {l : List Char}
    (h1 : l.length ≤ f1) (h2 : l.length ≤ f2) : strip1F f1 l = strip1F f2 l := by
  induction f1 generalizing f2 l with
  | zero =>
    have : l = [] := List.eq_nil_of_length_eq_zero (Nat.le_zero.mp h1)
    subst this
    cases f2 <;> rfl
  | succ f ih =>
    cases l with
    | nil => cases f2 <;> rfl
    | cons c rest =>
      cases f2 with
      | zero => simp at h2
      | succ f2' =>
        have hr1 : rest.length ≤ f := by simp at h1; omega
        have hr2 : rest.length ≤ f2' := by simp at h2; omega
        rw [strip1F, strip1F]
        split
        · have hd : (List.dropWhile jsWs (rest.drop 6)).length ≤ rest.length :=
            le_trans (length_dropWhile_le _ _) (by simp)
          exact ih f2' (le_trans hd hr1) (le_trans hd hr2)
        · rw [ih f2' hr1 hr2]

theorem strip2F_fuel (f1 f2 : Nat) {l : List Char}
    (h1 : l.length ≤ f1) (h2 : l.length ≤ f2) : strip2F f1 l = strip2F f2 l := by
  induction f1 generalizing f2 l with
  | zero =>
    have : l = [] := List.eq_nil_of_length_eq_zero (Nat.le_zero.mp h1)
    subst this
    cases f2 <;> rfl
  | succ f ih =>
    cases l with
    | nil => cases f2 <;> rfl
    | cons c rest =>
      cases f2 with
      | zero => simp at h2
      | succ f2' =>
        have hr1 : rest.length ≤ f := by simp at h1; omega
        have hr2 : rest.length ≤ f2' := by simp at h2; omega
        rw [strip2F, strip2F]
        split
        · have hd : (List.dropWhile jsWs (rest.drop 2)).length ≤ rest.length :=
            le_trans (length_dropWhile_le _ _) (by simp)
          exact ih f2' (le_trans hd hr1) (le_trans hd hr2)
        · rw [ih f2' hr1 hr2]

/-- On a text with no triple-backtick run, the `/```json\s*/gi` pass is
the identity, whatever the fuel. -/
theorem strip1F_id {l : List Char} (f : Nat) (h : hasFence l = false) :
    strip1F f l = l := by
  induction f generalizing l with
  | zero => rfl
  | succ f ih =>
    cases l with
    | nil => rfl
    | cons c rest =>
      obtain ⟨hc, hrest⟩ := hasFence_cons_elim h
      rw [strip1F, if_neg (fun hx => hc ⟨hx.1, hx.2.1⟩), ih hrest]

/-- On a text with no triple-backtick run, the `/```\s*/gi` pass is
the identity, whatever the fuel. -/
theorem strip2F_id {l : List Char} (f : Nat) (h : hasFence l = false) :
    strip2F f l = l := by
  induction f generalizing l with
  | zero => rfl
  | succ f ih =>
    cases l with
    | nil => rfl
    | cons c rest =>
      obtain ⟨hc, hrest⟩ := hasFence_cons_elim h
      rw [strip2F, if_neg hc, ih hrest]

theorem dropWhile_head_not (p : Char → Bool) (l : List Char) :
    ∀ c, (l.dropWhile p).head? = some c → p c = false := by
  induction l with
  | nil => simp
  | cons a rest ih =>
    rw [List.dropWhile_cons]
    split
    · exact ih
    · intro c hc
      simp only [List.head?_cons, Option.some.injEq] at hc
      subst hc
      simpa using ‹¬ p a = true›

theorem dropWhile_idem_append (p : Char → Bool) (l u : List Char)
    (hne : l.dropWhile p ≠ []) :
    List.dropWhile p (l.dropWhile p ++ u) = l.dropWhile p ++ u := by
  cases hd : l.dropWhile p with
  | nil => exact absurd hd hne
  | cons c rest =>
    have hc : p c = false := dropWhile_head_not p l c (by rw [hd]; rfl)
    simp [List.dropWhile_cons, hc]

theorem hasFence_dropWhile (p : Char → Bool) {l : List Char}
    (h : hasFence l = false) : hasFence (l.dropWhile p) = false := by
  induction l with
  | nil => simpa using h
  | cons c rest ih =>
    obtain ⟨_, hrest⟩ := hasFence_cons_elim h
    rw [List.dropWhile_cons]
    split
    · exact ih hrest
    · exact h

theorem take2_append_cases {rest t : List Char}
    (h : (rest ++ t).take 2 = [bt, bt]) :
    rest.take 2 = [bt, bt] ∨ t.head? = some bt := by
  cases rest with
  | nil =>
    cases t with
    | nil => simp at h
    | cons a t1 =>
      right
      simp only [List.nil_append] at h
      cases t1 <;> simp_all
  | cons d rest1 =>
    cases rest1 with
    | nil =>
      cases t with
      | nil => simp at h
      | cons a t1 =>
        right
        simp only [List.cons_append, List.nil_append] at h
        simp_all
    | cons e rest2 =>
      left
      simp_all

/-- Scanning a concatenation whose left part holds no triple-backtick run
and whose right part does not start with a backtick: no match of the
`/```json\s*/gi` pass can touch the boundary, so the left part passes
through unchanged. -/
theorem strip1F_append (f : Nat) (s t : List Char)
    (hf : s.length + t.length ≤ f) (hs : hasFence s = false)
    (ht : t.head? ≠ some bt) :
    strip1F f (s ++ t) = s ++ strip1F t.length t := by
  induction s generalizing f with
  | nil => simpa using strip1F_fuel f t.length (by simpa using hf) le_rfl
  | cons c rest ih =>
    cases f with
    | zero => simp at hf
    | succ f' =>
      obtain ⟨hc, hrest⟩ := hasFence_cons_elim hs
      have hcond : ¬(c = bt ∧ (rest ++ t).take 2 = [bt, bt] ∧
          isJsonTag ((rest ++ t).drop 2) = true) := by
        rintro ⟨hcbt, htake, -⟩
        rcases take2_append_cases htake with h2 | h2
        · exact hc ⟨hcbt, h2⟩
        · exact ht h2
      rw [List.cons_append, strip1F, if_neg hcond,
        ih f' (by simp at hf; omega) hrest]
      rfl

/-- Same boundary fact for the `/```\s*/gi` pass. -/
theorem strip2F_append (f : Nat) (s t : List Char)
    (hf : s.length + t.length ≤ f) (hs : hasFence s = false)
    (ht : t.head? ≠ some bt) :
    strip2F f (s ++ t) = s ++ strip2F t.length t := by
  induction s generalizing f with
  | nil => simpa using strip2F_fuel f t.length (by simpa using hf) le_rfl
  | cons c rest ih =>
    cases f with
    | zero => simp at hf
    | succ f' =>
      obtain ⟨hc, hrest⟩ := hasFence_cons_elim hs
      have hcond : ¬(c = bt ∧ (rest ++ t).take 2 = [bt, bt]) := by
        rintro ⟨hcbt, htake⟩
        rcases take2_append_cases htake with h2 | h2
        · exact hc ⟨hcbt, h2⟩
        · exact ht h2
      rw [List.cons_append, strip2F, if_neg hcond,
        ih f' (by simp at hf; omega) hrest]
      rfl

theorem isJsonTag_head_not_j {c : Char} (rest : List Char)
    (h : c.toLower ≠ 'j') : isJsonTag (c :: rest) = false := by
  rcases rest with _ | ⟨c2, _ | ⟨c3, _ | ⟨c4, r⟩⟩⟩ <;> simp [isJsonTag, h]

/-- When the whole text is whitespace, trimming yields the empty text. -/
theorem jsTrim_of_dropWhile_nil {s : List Char}
    (hE : List.dropWhile jsWs s = []) : jsTrim s = [] := by
  simp [jsTrim, hE]

/-- Appending the trailing newline left over from a stripped closing
fence does not change the trimmed text. -/
theorem jsTrim_append_newline {s : List Char}
    (hE : List.dropWhile jsWs s ≠ []) :
    jsTrim (List.dropWhile jsWs s ++ ['\n']) = jsTrim s := by
  rw [jsTrim, jsTrim, dropWhile_idem_append jsWs s ['\n'] hE,
    List.reverse_append]
  simp [List.dropWhile_cons, (by decide : jsWs '\n' = true)]

/-- After the leading `json` fence of a wrapped all-whitespace text is
stripped, only the closing fence remains. -/
theorem strip1F_wrapJson_ws {s : List Char}
    (hE : List.dropWhile jsWs s = []) {f : Nat} (hf : s.length + 12 ≤ f) :
    strip1F f (fenceWrapJson s) = [bt, bt, bt] := by
  cases f with
  | zero => omega
  | succ f' =>
    have hw : fenceWrapJson s =
        bt :: bt :: bt :: 'j' :: 's' :: 'o' :: 'n' :: '\n' ::
          (s ++ "\n```".data) := rfl
    rw [hw, strip1F, if_pos ⟨rfl, rfl, rfl⟩]
    show strip1F f' (List.dropWhile jsWs ('\n' :: (s ++ "\n```".data))) = _
    rw [List.dropWhile_cons, if_pos (by decide : jsWs '\n' = true),
      List.dropWhile_append, hE]
    show strip1F f' [bt, bt, bt] = [bt, bt, bt]
    rw [strip1F_fuel f' 3 (by simp; omega) (by simp)]
    decide

/-- After the leading `json` fence is stripped from a wrapped text that
is not all whitespace, the left-trimmed text and the closing fence
remain. -/
theorem strip1F_wrapJson_ne {s : List Char} (hs : hasFence s = false)
    (hE : List.dropWhile jsWs s ≠ []) {f : Nat} (hf : s.length + 12 ≤ f) :
    strip1F f (fenceWrapJson s) =
      List.dropWhile jsWs s ++ "\n```".data := by
  cases f with
  | zero => omega
  | succ f' =>
    have hw : fenceWrapJson s =
        bt :: bt :: bt :: 'j' :: 's' :: 'o' :: 'n' :: '\n' ::
          (s ++ "\n```".data) := rfl
    rw [hw, strip1F, if_pos ⟨rfl, rfl, rfl⟩]
    show strip1F f' (List.dropWhile jsWs ('\n' :: (s ++ "\n```".data))) = _
    rw [List.dropWhile_cons, if_pos (by decide : jsWs '\n' = true),
      List.dropWhile_append, if_neg (by simpa using hE)]
    rw [strip1F_append f' (List.dropWhile jsWs s) "\n```".data
      (by
        have := length_dropWhile_le jsWs s
        simp at hf ⊢
        omega)
      (hasFence_dropWhile jsWs hs) (by decide)]
    rfl

/-- The `/```json\s*/gi` pass leaves a plainly wrapped text unchanged
(the opening fence is not followed by a `json` tag). -/
theorem strip1F_wrapPlain {s : List Char} (hs : hasFence s = false)
    {f : Nat} (hf : s.length + 8 ≤ f) :
    strip1F f (fenceWrapPlain s) =
      bt :: bt :: bt :: '\n' :: (s ++ "\n```".data) := by
  cases f with
  | zero => omega
  | succ f1 =>
    have hw : fenceWrapPlain s =
        bt :: bt :: bt :: '\n' :: (s ++ "\n```".data) := rfl
    have hn1 : ¬(bt = bt ∧
        List.take 2 (bt :: bt :: '\n' :: (s ++ "\n```".data)) = [bt, bt] ∧
        isJsonTag (List.drop 2 (bt :: bt :: '\n' :: (s ++ "\n```".data))) = true) := by
      rintro ⟨-, -, hC⟩
      simp only [List.drop_succ_cons, List.drop_zero] at hC
      rw [isJsonTag_head_not_j _ (by decide)] at hC
      exact Bool.false_ne_true hC
    rw [hw, strip1F, if_neg hn1]
    cases f1 with
    | zero => simp at hf
    | succ f2 =>
      have hn2 : ¬(bt = bt ∧
          List.take 2 (bt :: '\n' :: (s ++ "\n```".data)) = [bt, bt] ∧
          isJsonTag (List.drop 2 (bt :: '\n' :: (s ++ "\n```".data))) = true) := by
        rintro ⟨-, h2, -⟩
        simp only [List.take_succ_cons, List.take_zero] at h2
        simp at h2
        exact absurd h2 (by decide)
      rw [strip1F, if_neg hn2]
      cases f2 with
      | zero => simp at hf
      | succ f3 =>
        have hn3 : ¬(bt = bt ∧
            List.take 2 ('\n' :: (s ++ "\n```".data)) = [bt, bt] ∧
            isJsonTag (List.drop 2 ('\n' :: (s ++ "\n```".data))) = true) := by
          rintro ⟨-, h2, -⟩
          simp only [List.take_succ_cons] at h2
          simp at h2
          exact absurd h2.1 (by decide)
        rw [strip1F, if_neg hn3]
        cases f3 with
        | zero => simp at hf
        | succ f4 =>
          have hn4 : ¬('\n' = bt ∧
              List.take 2 (s ++ "\n```".data) = [bt, bt] ∧
              isJsonTag (List.drop 2 (s ++ "\n```".data)) = true) := by
            rintro ⟨h, -, -⟩
            exact absurd h (by decide)
          rw [strip1F, if_neg hn4]
          rw [strip1F_append f4 s "\n```".data
            (by simp at hf ⊢; omega) hs (by decide)]
          rfl

/-- Stripping the remaining closing fence leaves only the preceding
newline. -/
theorem strip2F_tail (f : Nat) (s1 : List Char) (hs1 : hasFence s1 = false)
    (hf : s1.length + 4 ≤ f) :
    strip2F f (s1 ++ "\n```".data) = s1 ++ ['\n'] := by
  rw [strip2F_append f s1 "\n```".data (by simpa using hf) hs1 (by decide)]
  rfl

/-- On a fence-free text the whole cleaning chain is just `trim`. -/
theorem cleanContent_id {s : List Char} (h : hasFence s = false) :
    cleanContent s = jsTrim s := by
  rw [cleanContent, stripAllFence, stripJsonFence, strip1F_id _ h, strip2F_id _ h]

/-- Cleaning a `json`-tagged fenced text gives the same result as
cleaning the inner text. -/
theorem cleanContent_wrapJson {s : List Char} (hs : hasFence s = false) :
    cleanContent (fenceWrapJson s) = cleanContent s := by
  rw [cleanContent_id hs, cleanContent, stripJsonFence]
  by_cases hE : List.dropWhile jsWs s = []
  · rw [strip1F_wrapJson_ws hE (by simp [fenceWrapJson]),
      jsTrim_of_dropWhile_nil hE]
    decide
  · rw [strip1F_wrapJson_ne hs hE (by simp [fenceWrapJson]), stripAllFence,
      strip2F_tail _ _ (hasFence_dropWhile jsWs hs) (by simp)]
    exact jsTrim_append_newline hE

/-- The second scanning pass removes an untagged opening fence and the
closing fence. -/
theorem strip2F_plainRemainder {s : List Char} (hs : hasFence s = false)
    {f : Nat} (hf : s.length + 8 ≤ f) :
    jsTrim (strip2F f (bt :: bt :: bt :: '\n' :: (s ++ "\n```".data))) =
      jsTrim s := by
  cases f with
  | zero => omega
  | succ f1 =>
    rw [strip2F, if_pos ⟨rfl, rfl⟩]
    show jsTrim (strip2F f1 (List.dropWhile jsWs ('\n' :: (s ++ "\n```".data)))) = _
    rw [List.dropWhile_cons, if_pos (by decide : jsWs '\n' = true),
      List.dropWhile_append]
    by_cases hE : List.dropWhile jsWs s = []
    · rw [hE, jsTrim_of_dropWhile_nil hE]
      show jsTrim (strip2F f1 [bt, bt, bt]) = []
      rw [strip2F_fuel f1 3 (by simp; omega) (by simp)]
      decide
    · rw [if_neg (by simpa using hE),
        strip2F_tail f1 _ (hasFence_dropWhile jsWs hs)
          (by
            have := length_dropWhile_le jsWs s
            omega)]
      exact jsTrim_append_newline hE

/-- Cleaning an untagged fenced text gives the same result as cleaning
the inner text. -/
theorem cleanContent_wrapPlain {s : List Char} (hs : hasFence s = false) :
    cleanContent (fenceWrapPlain s) = cleanContent s := by
  rw [cleanContent_id hs, cleanContent, stripJsonFence,
    strip1F_wrapPlain hs (by simp [fenceWrapPlain]), stripAllFence]
  exact strip2F_plainRemainder hs (by simp)

/-! ### Facts about the route handler -/

theorem isEmpty_false_of_trim_large {s : List Char} {n : Nat}
    (h : ¬(jsTrim s).length < n) (hn : 0 < n) : s.isEmpty = false := by
  cases s with
  | nil => exact absurd (by simpa [jsTrim] using hn) h
  | cons a l => rfl

/-- A resume whose trimmed form is shorter than 50 characters is
rejected immediately with the resume validation error. -/
theorem route_resume_short (jd : Option Json) (rs raw : List Char)
    (h50 : (jsTrim rs).length < 50) :
    analyzeRoute ⟨some (.jstr rs), jd⟩ raw =
      (.resp 400 (errBody resumeErrMsg), none) := by
  by_cases hE : rs.isEmpty <;> simp [analyzeRoute, jsTruthy, hE, h50]

/-- With an acceptable resume, a job description whose trimmed form is
shorter than 30 characters is rejected with the job-description
validation error. -/
theorem route_jd_short (rs js raw : List Char)
    (h50 : ¬(jsTrim rs).length < 50) (h30 : (jsTrim js).length < 30) :
    analyzeRoute ⟨some (.jstr rs), some (.jstr js)⟩ raw =
      (.resp 400 (errBody jdErrMsg), none) := by
  have hrs := isEmpty_false_of_trim_large h50 (by omega)
  by_cases hjE : js.isEmpty <;>
    simp [analyzeRoute, jsTruthy, hrs, h50, hjE, h30]

/-- With both inputs validated, the handler builds the prompt, calls the
model and normalizes the raw output. -/
theorem route_validated (rs js raw : List Char)
    (h50 : ¬(jsTrim rs).length < 50) (h30 : ¬(jsTrim js).length < 30) :
    analyzeRoute ⟨some (.jstr rs), some (.jstr js)⟩ raw =
      ((match jsonParse (cleanContent raw) with
        | none => RouteResult.resp 500 (errBody formatErrMsg)
        | some v =>
          RouteResult.resp 200 [(successKey, .jbool true), (dataKey, v)]),
       some ⟨systemInstruction,
         userMessage ((jsTrim rs).take 6000) ((jsTrim js).take 3000)⟩) := by
  have hrs := isEmpty_false_of_trim_large h50 (by omega)
  have hjs := isEmpty_false_of_trim_large h30 (by omega)
  simp [analyzeRoute, jsTruthy, hrs, hjs, h50, h30]
  cases jsonParse (cleanContent raw) <;> rfl

/-- The prompt component of the route depends only on the request, never
on the model output. -/
theorem analyzeRoute_prompt_raw (req : Req) (raw1 raw2 : List Char) :
    (analyzeRoute req raw1).2 = (analyzeRoute req raw2).2 := by
  rcases req with ⟨or, oj⟩
  rcases or with _ | rv
  · rfl
  · rcases rv with _ | b | ⟨ng, ip, fp, ep⟩ | s | a | o <;>
      rcases oj with _ | jv <;>
      simp only [analyzeRoute] <;>
      repeat' first
        | rfl
        | (split <;> try rfl)

/-- Every response of the route is one of: a 400 validation error, the
500 format error, a success envelope, or a raised `TypeError` with no
status code and a non-empty message. -/
theorem analyzeRoute_shape (req : Req) (raw : List Char) :
    (∃ m, (analyzeRoute req raw).1 = .resp 400 (errBody m)) ∨
    ((analyzeRoute req raw).1 = .resp 500 (errBody formatErrMsg)) ∨
    (∃ v, (analyzeRoute req raw).1 =
      .resp 200 [(successKey, .jbool true), (dataKey, v)]) ∨
    (∃ e, (analyzeRoute req raw).1 = .raised e ∧ e.statusCode = none ∧
      e.message.isEmpty = false) := by
  rcases req with ⟨or, oj⟩
  rcases or with _ | rv
  · exact .inl ⟨resumeErrMsg, rfl⟩
  · rcases rv with _ | b | ⟨ng, ip, fp, ep⟩ | s | a | o <;>
      rcases oj with _ | jv <;>
      simp only [analyzeRoute] <;>
      repeat' first
        | exact .inl ⟨resumeErrMsg, rfl⟩
        | exact .inl ⟨jdErrMsg, rfl⟩
        | exact .inr (.inl rfl)
        | exact .inr (.inr (.inl ⟨_, rfl⟩))
        | exact .inr (.inr (.inr ⟨_, rfl, rfl, by decide⟩))
        | split

/-! ### The response envelope -/

/-- A success body: exactly `{ success: true, data }`. -/
def isSuccessEnvelope (b : List (List Char × Json)) : Prop :=
  ∃ v, b = [(successKey, Json.jbool true), (dataKey, v)]

/-- A failure body: an `error` string with no `success` and no `data`
field. -/
def isFailureEnvelope (b : List (List Char × Json)) : Prop :=
  (∃ m, lookupKV errorKey b = some (.jstr m)) ∧
  lookupKV successKey b = none ∧ lookupKV dataKey b = none

theorem errBody_failure (m : List Char) : isFailureEnvelope (errBody m) := by
  refine ⟨⟨m, ?_⟩, ?_, ?_⟩
  · simp [errBody, lookupKV]
  · simp [errBody, lookupKV, show ¬ errorKey = successKey from by decide]
  · simp [errBody, lookupKV, show ¬ errorKey = dataKey from by decide]

theorem errBody_not_success (m : List Char) : ¬ isSuccessEnvelope (errBody m) := by
  rintro ⟨v, hv⟩
  simp [errBody] at hv

/-- The global error handler always produces a failure body. -/
theorem serverRespond_raised_failure (dev : Bool) (e : JsError) :
    isFailureEnvelope (serverRespond dev (.raised e)).2 ∧
    ¬ isSuccessEnvelope (serverRespond dev (.raised e)).2 := by
  have h1 : ¬ errorKey = successKey := by decide
  have h2 : ¬ errorKey = dataKey := by decide
  have h3 : ¬ stackKey = successKey := by decide
  have h4 : ¬ stackKey = dataKey := by decide
  constructor
  · refine ⟨⟨(if e.message.isEmpty then internalErrMsg else e.message), ?_⟩,
      ?_, ?_⟩ <;> cases dev <;>
      simp [serverRespond, lookupKV, h1, h2, h3, h4]
  · rintro ⟨v, hv⟩
    cases dev <;> simp [serverRespond, h1] at hv

/-- When a request field is absent or not a string, the route either
responds 400 itself or raises a status-less error; it never calls the
model. -/
theorem analyzeRoute_nonstring (req : Req) (raw : List Char)
    (h : isStringField req.resume = false ∨
      isStringField req.jobDescription = false) :
    (analyzeRoute req raw).2 = none ∧
    ((∃ m, (analyzeRoute req raw).1 = .resp 400 (errBody m)) ∨
      (∃ e, (analyzeRoute req raw).1 = .raised e ∧ e.statusCode = none)) := by
  rcases req with ⟨or, oj⟩
  rcases or with _ | rv
  · exact ⟨rfl, .inl ⟨resumeErrMsg, rfl⟩⟩
  case some =>
    by_cases hT : jsTruthy rv = false
    · refine ⟨?_, .inl ⟨resumeErrMsg, ?_⟩⟩ <;>
        rcases rv with _ | b | ⟨ng, ip, fp, ep⟩ | s | a | o <;>
        simp [analyzeRoute, hT]
    · cases rv with
      | jstr s =>
        have hj : isStringField oj = false := by
          rcases h with h | h
          · simp [isStringField] at h
          · exact h
        by_cases h50 : (jsTrim s).length < 50
        · rw [route_resume_short oj s raw h50]
          exact ⟨rfl, .inl ⟨resumeErrMsg, rfl⟩⟩
        · rcases oj with _ | jv
          · exact ⟨by simp [analyzeRoute, hT, h50],
              .inl ⟨jdErrMsg, by simp [analyzeRoute, hT, h50]⟩⟩
          · by_cases hjT : jsTruthy jv = false
            · refine ⟨?_, .inl ⟨jdErrMsg, ?_⟩⟩ <;>
                cases jv <;>
                simp [analyzeRoute, hT, h50, hjT]
            · cases jv with
              | jstr s2 => simp [isStringField] at hj
              | jnull =>
                refine ⟨?_, .inr ⟨⟨none, jdTrimTypeErr, jdTrimTypeErr⟩, ?_, rfl⟩⟩ <;>
                  simp [analyzeRoute, hT, h50, hjT]
              | jbool b =>
                refine ⟨?_, .inr ⟨⟨none, jdTrimTypeErr, jdTrimTypeErr⟩, ?_, rfl⟩⟩ <;>
                  simp [analyzeRoute, hT, h50, hjT]
              | jnum ng ip fp ep =>
                refine ⟨?_, .inr ⟨⟨none, jdTrimTypeErr, jdTrimTypeErr⟩, ?_, rfl⟩⟩ <;>
                  simp [analyzeRoute, hT, h50, hjT]
              | jarr a =>
                refine ⟨?_, .inr ⟨⟨none, jdTrimTypeErr, jdTrimTypeErr⟩, ?_, rfl⟩⟩ <;>
                  simp [analyzeRoute, hT, h50, hjT]
              | jobj o =>
                refine ⟨?_, .inr ⟨⟨none, jdTrimTypeErr, jdTrimTypeErr⟩, ?_, rfl⟩⟩ <;>
                  simp [analyzeRoute, hT, h50, hjT]
      | jnull =>
        refine ⟨?_, .inr ⟨⟨none, resumeTrimTypeErr, resumeTrimTypeErr⟩, ?_, rfl⟩⟩ <;>
          simp [analyzeRoute, hT]
      | jbool b =>
        refine ⟨?_, .inr ⟨⟨none, resumeTrimTypeErr, resumeTrimTypeErr⟩, ?_, rfl⟩⟩ <;>
          simp [analyzeRoute, hT]
      | jnum ng ip fp ep =>
        refine ⟨?_, .inr ⟨⟨none, resumeTrimTypeErr, resumeTrimTypeErr⟩, ?_, rfl⟩⟩ <;>
          simp [analyzeRoute, hT]
      | jarr a =>
        refine ⟨?_, .inr ⟨⟨none, resumeTrimTypeErr, resumeTrimTypeErr⟩, ?_, rfl⟩⟩ <;>
          simp [analyzeRoute, hT]
      | jobj o =>
        refine ⟨?_, .inr ⟨⟨none, resumeTrimTypeErr, resumeTrimTypeErr⟩, ?_, rfl⟩⟩ <;>
          simp [analyzeRoute, hT]

/-! ### Concrete sample inputs used by the witnesses -/

/-- A valid resume (61 characters, no surrounding whitespace). -/
def sampleResume : List Char :=
  "Experienced software engineer with ten years of backend work.".data

/-- A valid job description (38 characters). -/
def sampleJD : List Char :=
  "Looking for a senior backend engineer.".data

/-- A model output that parses as JSON but violates the declared
`AnalysisResult` contract (every required key except `matchScore` is
missing, and `matchScore` is 200, outside `[0,100]`). -/
def badModelOutput : List Char := "\x7b\"matchScore\":200\x7d".data

/-! ### The claims -/

/-- C1: the spec says a parsed value violating the `AnalysisResult`
contract yields `FormatError{reason:"schema"}` and never a success
envelope.  The code performs no schema validation at all: on valid
inputs, the model output `{"matchScore":200}` — which misses every other
required key and has `matchScore` outside `[0,100]` — is wrapped
verbatim in a 200 success envelope.  This contradicts the repository's
own guide (request lifecycle step 8: "Validate required fields exist"),
so the claim is recorded as a code bug; this theorem evaluates the code
at the failing input. -/
theorem c1_parse_only_no_schema_validation :
    (analyzeEndpoint false ⟨some (.jstr sampleResume), some (.jstr sampleJD)⟩
      badModelOutput).1 =
      (200, [(successKey, .jbool true),
             (dataKey, .jobj [("matchScore".data,
               .jnum false "200".data [] none)])]) := rfl

/-- C2 counterexample: a request whose `resume` field is the JSON number
`123` (present, truthy, not a string) and whose `jobDescription` is a
valid string.  The claim says such a request fails with a `MissingField`
validation error, a client-fault response; the pipeline instead raises
`TypeError: resume.trim is not a function`, surfaced by the global error
handler as status 500 — a server fault, not a client fault (400). -/
theorem c2_counterexample :
    isStringField (some (Json.jnum false "123".data [] none)) = false ∧
    (analyzeEndpoint false
      ⟨some (.jnum false "123".data [] none), some (.jstr sampleJD)⟩
      "x".data).1 =
      (500, errBody resumeTrimTypeErr) ∧
    (analyzeEndpoint false
      ⟨some (.jnum false "123".data [] none), some (.jstr sampleJD)⟩
      "x".data).1.1 ≠ 400 ∧
    (analyzeEndpoint false
      ⟨some (.jnum false "123".data [] none), some (.jstr sampleJD)⟩
      "x".data).2 = none :=
  ⟨rfl, rfl, by decide, rfl⟩

/-- C2 amended: for every request in which `resume` or `jobDescription`
is absent or not a string, no remote model call is made, and the
response is either the 400 length-validation error (when the offending
value is absent or falsy) or a 500 server fault from the raised
`TypeError` (when it is truthy but not a string). -/
theorem c2_amended_nonstring_fault (dev : Bool) (req : Req) (raw : List Char)
    (h : isStringField req.resume = false ∨
      isStringField req.jobDescription = false) :
    (analyzeEndpoint dev req raw).2 = none ∧
    ((analyzeEndpoint dev req raw).1.1 = 400 ∨
      (analyzeEndpoint dev req raw).1.1 = 500) := by
  obtain ⟨h2, h1⟩ := analyzeRoute_nonstring req raw h
  refine ⟨h2, ?_⟩
  rcases h1 with ⟨m, hm⟩ | ⟨e, hm, hsc⟩
  · left
    show (serverRespond dev (analyzeRoute req raw).1).1 = 400
    rw [hm]
    rfl
  · right
    show (serverRespond dev (analyzeRoute req raw).1).1 = 500
    rw [hm, serverRespond, hsc]
    rfl

/-- C2 amended, witness: a request with both fields absent is rejected
with a 400 and no model call. -/
theorem c2_amended_witness :
    (isStringField (none : Option Json) = false ∨
      isStringField (none : Option Json) = false) ∧
    ((analyzeEndpoint false ⟨none, none⟩ []).2 = none ∧
      ((analyzeEndpoint false ⟨none, none⟩ []).1.1 = 400 ∨
        (analyzeEndpoint false ⟨none, none⟩ []).1.1 = 500)) :=
  ⟨Or.inl rfl, c2_amended_nonstring_fault false ⟨none, none⟩ [] (Or.inl rfl)⟩

/-- C3 counterexample: the stripping step is a global replace, so a
string with no surrounding fences but an interior triple backtick is
changed — stripping is not a no-op on unfenced strings.  Here
`a```b` becomes `ab`. -/
theorem c3_counterexample :
    stripAllFence (stripJsonFence ("a".data ++ [bt, bt, bt] ++ "b".data)) =
      "ab".data ∧
    "ab".data ≠ "a".data ++ [bt, bt, bt] ++ "b".data := by
  exact ⟨by decide, by decide⟩

/-- C3 amended: for every model output that is a text containing no
triple-backtick run, wrapping it in code-fence markers (tagged `json` or
untagged) does not change the cleaned text the normalizer parses, and
the two stripping passes leave such a text unchanged (the global
replaces also remove interior fence markers, so the no-op guarantee
holds only for texts with no triple-backtick run anywhere). -/
theorem c3_amended_fence_stripping (s : List Char) (h : hasFence s = false) :
    cleanContent (fenceWrapJson s) = cleanContent s ∧
    cleanContent (fenceWrapPlain s) = cleanContent s ∧
    stripAllFence (stripJsonFence s) = s := by
  refine ⟨cleanContent_wrapJson h, cleanContent_wrapPlain h, ?_⟩
  rw [stripJsonFence, strip1F_id _ h, stripAllFence, strip2F_id _ h]

/-- C3 amended, witness at the JSON text `{"a":1}`. -/
theorem c3_amended_witness :
    hasFence "\x7b\"a\":1\x7d".data = false ∧
    (cleanContent (fenceWrapJson "\x7b\"a\":1\x7d".data) =
      cleanContent "\x7b\"a\":1\x7d".data ∧
    cleanContent (fenceWrapPlain "\x7b\"a\":1\x7d".data) =
      cleanContent "\x7b\"a\":1\x7d".data ∧
    stripAllFence (stripJsonFence "\x7b\"a\":1\x7d".data) =
      "\x7b\"a\":1\x7d".data) :=
  ⟨by decide, c3_amended_fence_stripping "\x7b\"a\":1\x7d".data (by decide)⟩

/-- C4: for every pair of string inputs with trimmed resume shorter than
50 characters or trimmed job description shorter than 30, the endpoint
answers 400 with one of the two validation-error bodies (the resume one
whenever the resume is short — in particular for a 10-character resume),
and the remote model is never called. -/
theorem c4_short_inputs_validation_error (dev : Bool) (rs js raw : List Char)
    (h : (jsTrim rs).length < 50 ∨ (jsTrim js).length < 30) :
    (analyzeEndpoint dev ⟨some (.jstr rs), some (.jstr js)⟩ raw).2 = none ∧
    (analyzeEndpoint dev ⟨some (.jstr rs), some (.jstr js)⟩ raw).1.1 = 400 ∧
    ((analyzeEndpoint dev ⟨some (.jstr rs), some (.jstr js)⟩ raw).1.2 =
        errBody resumeErrMsg ∨
      (analyzeEndpoint dev ⟨some (.jstr rs), some (.jstr js)⟩ raw).1.2 =
        errBody jdErrMsg) ∧
    ((jsTrim rs).length < 50 →
      (analyzeEndpoint dev ⟨some (.jstr rs), some (.jstr js)⟩ raw).1.2 =
        errBody resumeErrMsg) := by
  by_cases h50 : (jsTrim rs).length < 50
  · refine ⟨?_, ?_, .inl ?_, fun _ => ?_⟩ <;>
      simp [analyzeEndpoint, route_resume_short _ _ _ h50, serverRespond]
  · have h30 : (jsTrim js).length < 30 := h.resolve_left h50
    refine ⟨?_, ?_, .inr ?_, fun hc => absurd hc h50⟩ <;>
      simp [analyzeEndpoint, route_jd_short _ _ _ h50 h30, serverRespond]

/-- C4 witness: a 10-character resume is rejected with exactly the
resume validation error and no model call. -/
theorem c4_witness :
    ((jsTrim "only10char".data).length < 50 ∨
      (jsTrim sampleJD).length < 30) ∧
    ((analyzeEndpoint false
        ⟨some (.jstr "only10char".data), some (.jstr sampleJD)⟩
        "x".data).2 = none ∧
      (analyzeEndpoint false
        ⟨some (.jstr "only10char".data), some (.jstr sampleJD)⟩
        "x".data).1.1 = 400 ∧
      ((analyzeEndpoint false
          ⟨some (.jstr "only10char".data), some (.jstr sampleJD)⟩
          "x".data).1.2 = errBody resumeErrMsg ∨
        (analyzeEndpoint false
          ⟨some (.jstr "only10char".data), some (.jstr sampleJD)⟩
          "x".data).1.2 = errBody jdErrMsg) ∧
      ((jsTrim "only10char".data).length < 50 →
        (analyzeEndpoint false
          ⟨some (.jstr "only10char".data), some (.jstr sampleJD)⟩
          "x".data).1.2 = errBody resumeErrMsg)) :=
  ⟨Or.inl (by decide),
    c4_short_inputs_validation_error false "only10char".data sampleJD
      "x".data (Or.inl (by decide))⟩

/-- C5: for every validated input pair, the prompt sent to the model
embeds exactly the first 6000 characters of the trimmed resume and the
first 3000 characters of the trimmed job description (all of either text
when it is shorter than its cap), and the embedded texts never exceed
the caps. -/
theorem c5_truncation_exact (dev : Bool) (rs js raw : List Char)
    (h50 : 50 ≤ (jsTrim rs).length) (h30 : 30 ≤ (jsTrim js).length) :
    (analyzeEndpoint dev ⟨some (.jstr rs), some (.jstr js)⟩ raw).2 =
      some ⟨systemInstruction,
        userMessage ((jsTrim rs).take 6000) ((jsTrim js).take 3000)⟩ ∧
    ((jsTrim rs).take 6000).length ≤ 6000 ∧
    ((jsTrim js).take 3000).length ≤ 3000 ∧
    ((jsTrim rs).length ≤ 6000 → (jsTrim rs).take 6000 = jsTrim rs) ∧
    ((jsTrim js).length ≤ 3000 → (jsTrim js).take 3000 = jsTrim js) := by
  refine ⟨?_, List.length_take_le _ _, List.length_take_le _ _,
    fun h => List.take_of_length_le h, fun h => List.take_of_length_le h⟩
  rw [analyzeEndpoint, route_validated _ _ _ (by omega) (by omega)]

/-- C5 witness at the sample inputs (both below their caps, so the
embedded texts are the whole trimmed inputs). -/
theorem c5_witness :
    50 ≤ (jsTrim sampleResume).length ∧ 30 ≤ (jsTrim sampleJD).length ∧
    ((analyzeEndpoint false ⟨some (.jstr sampleResume), some (.jstr sampleJD)⟩
        "x".data).2 =
      some ⟨systemInstruction,
        userMessage ((jsTrim sampleResume).take 6000)
          ((jsTrim sampleJD).take 3000)⟩ ∧
    ((jsTrim sampleResume).take 6000).length ≤ 6000 ∧
    ((jsTrim sampleJD).take 3000).length ≤ 3000 ∧
    ((jsTrim sampleResume).length ≤ 6000 →
      (jsTrim sampleResume).take 6000 = jsTrim sampleResume) ∧
    ((jsTrim sampleJD).length ≤ 3000 →
      (jsTrim sampleJD).take 3000 = jsTrim sampleJD)) :=
  ⟨by decide, by decide,
    c5_truncation_exact false sampleResume sampleJD "x".data
      (by decide) (by decide)⟩

/-- C6: for every validated input pair, when the cleaned model output
does not parse as JSON the endpoint answers 500 with exactly the body
`{error:"AI returned unexpected format. Please try again."}`. -/
theorem c6_unparsable_format_error (dev : Bool) (rs js raw : List Char)
    (h50 : 50 ≤ (jsTrim rs).length) (h30 : 30 ≤ (jsTrim js).length)
    (hp : jsonParse (cleanContent raw) = none) :
    (analyzeEndpoint dev ⟨some (.jstr rs), some (.jstr js)⟩ raw).1 =
      (500, errBody formatErrMsg) := by
  rw [analyzeEndpoint, route_validated _ _ _ (by omega) (by omega)]
  simp [hp, serverRespond]

/-- C6 witness: plain prose with no JSON yields the format-error
response. -/
theorem c6_witness :
    50 ≤ (jsTrim sampleResume).length ∧ 30 ≤ (jsTrim sampleJD).length ∧
    jsonParse (cleanContent "Sorry, I cannot analyze this resume.".data) =
      none ∧
    (analyzeEndpoint false ⟨some (.jstr sampleResume), some (.jstr sampleJD)⟩
      "Sorry, I cannot analyze this resume.".data).1 =
      (500, errBody formatErrMsg) :=
  ⟨by decide, by decide, rfl,
    c6_unparsable_format_error false sampleResume sampleJD
      "Sorry, I cannot analyze this resume.".data
      (by decide) (by decide) rfl⟩

/-- C7: every response of the analyze endpoint populates exactly one
envelope variant: either the success body `{success:true, data}` with no
`error` key, or a failure body with an `error` string and no
`success`/`data` keys — never both and never neither. -/
theorem c7_envelope_exactly_one (dev : Bool) (req : Req) (raw : List Char) :
    (isSuccessEnvelope (analyzeEndpoint dev req raw).1.2 ∧
      lookupKV errorKey (analyzeEndpoint dev req raw).1.2 = none ∧
      ¬ isFailureEnvelope (analyzeEndpoint dev req raw).1.2) ∨
    (isFailureEnvelope (analyzeEndpoint dev req raw).1.2 ∧
      ¬ isSuccessEnvelope (analyzeEndpoint dev req raw).1.2) := by
  have hb : (analyzeEndpoint dev req raw).1.2 =
      (serverRespond dev (analyzeRoute req raw).1).2 := rfl
  rcases analyzeRoute_shape req raw with ⟨m, hm⟩ | hm | ⟨v, hm⟩ | ⟨e, hm, -, -⟩
  · right
    rw [hb, hm]
    exact ⟨errBody_failure m, errBody_not_success m⟩
  · right
    rw [hb, hm]
    exact ⟨errBody_failure _, errBody_not_success _⟩
  · left
    rw [hb, hm]
    refine ⟨⟨v, rfl⟩, ?_, ?_⟩
    · simp [serverRespond, lookupKV,
        show ¬ successKey = errorKey from by decide,
        show ¬ dataKey = errorKey from by decide]
    · rintro ⟨⟨m2, hm2⟩, -⟩
      simp [serverRespond, lookupKV,
        show ¬ successKey = errorKey from by decide,
        show ¬ dataKey = errorKey from by decide] at hm2
  · right
    rw [hb, hm]
    exact serverRespond_raised_failure dev e

/-- C8: for every validated input pair, the user message of the prompt
contains the truncated resume directly under the `=== RESUME ===` header
and the truncated job description directly under the
`=== JOB DESCRIPTION ===` header, and ends with the instruction to
return only the JSON object. -/
theorem c8_prompt_sections (dev : Bool) (rs js raw : List Char)
    (h50 : 50 ≤ (jsTrim rs).length) (h30 : 30 ≤ (jsTrim js).length) :
    ∃ p, (analyzeEndpoint dev ⟨some (.jstr rs), some (.jstr js)⟩ raw).2 =
        some p ∧
      (∃ a b, p.userMsg =
        a ++ ("=== RESUME ===\n".data ++ (jsTrim rs).take 6000) ++ b) ∧
      (∃ a b, p.userMsg =
        a ++ ("=== JOB DESCRIPTION ===\n".data ++ (jsTrim js).take 3000) ++ b) ∧
      (∃ a, p.userMsg = a ++ "Return ONLY the JSON object.".data) := by
  refine ⟨⟨systemInstruction,
    userMessage ((jsTrim rs).take 6000) ((jsTrim js).take 3000)⟩,
    ?_, ?_, ?_, ?_⟩
  · rw [analyzeEndpoint, route_validated _ _ _ (by omega) (by omega)]
  · exact ⟨"Analyze this resume against the job description.\n\n".data,
      userMsgMid ++ (jsTrim js).take 3000 ++ userMsgEnd, by
        simp only [userMessage,
          show userMsgIntro =
            "Analyze this resume against the job description.\n\n".data ++
              "=== RESUME ===\n".data from by decide, List.append_assoc]⟩
  · exact ⟨userMsgIntro ++ (jsTrim rs).take 6000 ++ "\n\n".data,
      userMsgEnd, by
        simp only [userMessage,
          show userMsgMid =
            "\n\n".data ++ "=== JOB DESCRIPTION ===\n".data from by decide,
          List.append_assoc]⟩
  · exact ⟨userMsgIntro ++ (jsTrim rs).take 6000 ++ userMsgMid ++
      (jsTrim js).take 3000 ++ "\n\n".data, by
        simp only [userMessage,
          show userMsgEnd =
            "\n\n".data ++ "Return ONLY the JSON object.".data from by decide,
          List.append_assoc]⟩

/-- C8 witness at the sample inputs. -/
theorem c8_witness :
    50 ≤ (jsTrim sampleResume).length ∧ 30 ≤ (jsTrim sampleJD).length ∧
    (∃ p, (analyzeEndpoint false
        ⟨some (.jstr sampleResume), some (.jstr sampleJD)⟩ "x".data).2 =
        some p ∧
      (∃ a b, p.userMsg =
        a ++ ("=== RESUME ===\n".data ++ (jsTrim sampleResume).take 6000) ++ b) ∧
      (∃ a b, p.userMsg =
        a ++ ("=== JOB DESCRIPTION ===\n".data ++
          (jsTrim sampleJD).take 3000) ++ b) ∧
      (∃ a, p.userMsg = a ++ "Return ONLY the JSON object.".data)) :=
  ⟨by decide, by decide,
    c8_prompt_sections false sampleResume sampleJD "x".data
      (by decide) (by decide)⟩

/-- C9: prompt construction is deterministic and depends only on the two
request fields: whatever the development mode and whatever raw text the
model returns (state that differs between two runs), the prompt —
system instruction together with user message — produced for the same
request is the same. -/
theorem c9_prompt_deterministic (dev1 dev2 : Bool) (req : Req)
    (raw1 raw2 : List Char) :
    (analyzeEndpoint dev1 req raw1).2 = (analyzeEndpoint dev2 req raw2).2 :=
  analyzeRoute_prompt_raw req raw1 raw2

/-- C10: input validation is ordered — when both the trimmed resume is
shorter than 50 characters and the trimmed job description is shorter
than 30, the response is exactly the resume error, and no remote call is
made. -/
theorem c10_resume_check_first (dev : Bool) (rs js raw : List Char)
    (h50 : (jsTrim rs).length < 50) (h30 : (jsTrim js).length < 30) :
    analyzeEndpoint dev ⟨some (.jstr rs), some (.jstr js)⟩ raw =
      ((400, errBody resumeErrMsg), none) := by
  rw [analyzeEndpoint, route_resume_short _ _ _ h50]
  rfl

/-- C10 witness: both inputs too short; the resume error wins. -/
theorem c10_witness :
    (jsTrim "tiny".data).length < 50 ∧ (jsTrim "short".data).length < 30 ∧
    analyzeEndpoint false ⟨some (.jstr "tiny".data), some (.jstr "short".data)⟩
      "x".data = ((400, errBody resumeErrMsg), none) :=
  ⟨by decide, by decide,
    c10_resume_check_first false "tiny".data "short".data "x".data
      (by decide) (by decide)⟩

end ResumeAnalyzer

